import Mathlib

/-!
Shallow embedding of `src/script.ts` (tomatobar-notion-integration), the
version with the failure-recovery protocol (`src/unnamed/part_000`).

Modelling conventions:
* A JavaScript `Date` is its epoch value in milliseconds, an `Int`
  (ECMAScript stores dates as integral millisecond time values; the `Date`
  constructor truncates a fractional argument toward zero).
* JSON numbers are modelled as exact rationals (`Rat`); the log-line
  `timestamp` field is written as `getTime() / 1000` and may be fractional.
* A log file is modelled as its list of parsed JSON line records
  (`JsonLogLine`); the `JSON.stringify`/`JSON.parse` string layer is the
  identity on these records and is not re-modelled.
* `Math.round x` is `⌊x + 1/2⌋` (ECMAScript rounds half toward +∞).
-/

/-- ECMAScript `Math.round`: round half toward positive infinity. -/
def jsRound (q : Rat) : Int := ⌊q + 1 / 2⌋

/-- Truncation toward zero, as the ECMAScript `Date` constructor applies to
its numeric argument (`Int.tdiv` truncates toward zero). -/
def jsTrunc (q : Rat) : Int := q.num.tdiv q.den

/-- `type TimerState = 'idle' | 'work' | 'rest'`. -/
inductive TimerState
  | idle
  | work
  | rest
deriving DecidableEq, Repr

/-- The `event` field of a log line: `'startStop' | 'timerFired'`. -/
inductive EventKind
  | startStop
  | timerFired
deriving DecidableEq, Repr

/-- `type JsonLogLine` from the source; the constant discriminator field
`type: 'transition'` carries no information and is omitted. -/
structure JsonLogLine where
  event : EventKind
  fromState : TimerState
  toState : TimerState
  timestamp : Rat
deriving DecidableEq, Repr

/-- `type LogLine = { stopping: boolean; date: Date }`. -/
structure LogLine where
  stopping : Bool
  date : Int
deriving DecidableEq, Repr

instance : Inhabited LogLine := ⟨⟨false, 0⟩⟩

/-- `type WorkPeriod = { start: Date; end: Date }`. -/
structure WorkPeriod where
  start : Int
  «end» : Int
deriving DecidableEq, Repr

/-- `unixToDate`: `new Date(unixTimestamp * 1000)`. -/
def unixToDate (unixTimestamp : Rat) : Int :=
  jsTrunc (unixTimestamp * 1000)

/-- `parseLogLine` (after `JSON.parse`): `stopping` iff `toState` is
`idle` or `rest`; `date` from the unix timestamp. -/
def parseLogLine (line : JsonLogLine) : LogLine :=
  { stopping := line.toState == TimerState.idle || line.toState == TimerState.rest
    date := unixToDate line.timestamp }

/-- `normalizeWorkPeriod(start, end)`: quantize the duration to whole
minutes with `Math.round`, cap at 25 minutes, drop below 5 minutes. -/
def normalizeWorkPeriod (start «end» : Int) : Option WorkPeriod :=
  let MINUTE : Int := 60 * 1000
  let MAX_WORK_PERIOD : Int := 25 * MINUTE
  let MIN_WORK_PERIOD : Int := 5 * MINUTE
  let duration : Int := «end» - start
  let periods : Int := jsRound ((duration : Rat) / (MINUTE : Rat))
  let minuteDuration : Int := periods * MINUTE
  let truncatedDuration : Int := min minuteDuration MAX_WORK_PERIOD
  if minuteDuration < MIN_WORK_PERIOD then
    none
  else
    some { start := start, «end» := start + truncatedDuration }

/-- The loop body of `getWorkPeriods`, as structural recursion over the
remaining lines; the loop variable `workStart` is the `Option Int` state
(`null` ↦ `none`). Emitted periods are the non-null results of
`normalizeWorkPeriod`. -/
def getWorkPeriodsGo : Option Int → List LogLine → List WorkPeriod
  | _, [] => []
  | some s, line :: rest =>
    if line.stopping then
      match normalizeWorkPeriod s line.date with
      | some p => p :: getWorkPeriodsGo none rest
      | none => getWorkPeriodsGo none rest
    else
      getWorkPeriodsGo (some s) rest
  | none, line :: rest =>
    if line.stopping then
      getWorkPeriodsGo none rest
    else
      getWorkPeriodsGo (some line.date) rest

/-- `getWorkPeriods(log)`: fold the log through the idle/work state machine,
starting with no interval open. -/
def getWorkPeriods (log : List LogLine) : List WorkPeriod :=
  getWorkPeriodsGo none log

/-- The same state machine emitting the raw `(workStart, workEnd)` pair that
`getWorkPeriods` hands to `normalizeWorkPeriod`, before normalization.
`rawWorkPeriodsGo_spec` proves this is exactly the raw part of the source
loop. -/
def rawWorkPeriodsGo : Option Int → List LogLine → List WorkPeriod
  | _, [] => []
  | some s, line :: rest =>
    if line.stopping then
      ⟨s, line.date⟩ :: rawWorkPeriodsGo none rest
    else
      rawWorkPeriodsGo (some s) rest
  | none, line :: rest =>
    if line.stopping then
      rawWorkPeriodsGo none rest
    else
      rawWorkPeriodsGo (some line.date) rest

/-- Raw-interval extraction from a whole log. -/
def rawWorkPeriods (log : List LogLine) : List WorkPeriod :=
  rawWorkPeriodsGo none log

/-- `getLogLinesFromWorkPeriod(workPeriod)`: the two synthetic transition
events serialized to the recovery log on delivery failure, in file order. -/
def getLogLinesFromWorkPeriod (workPeriod : WorkPeriod) : List JsonLogLine :=
  [ { event := EventKind.startStop
      fromState := TimerState.idle
      toState := TimerState.work
      timestamp := (workPeriod.start : Rat) / 1000 }
  , { event := EventKind.startStop
      fromState := TimerState.work
      toState := TimerState.idle
      timestamp := (workPeriod.«end» : Rat) / 1000 } ]

/-- The external record built by `createWorkProperty`: the page title and the
`Working Time` date range (an ISO string is an injective rendering of the
millisecond time value, so the range is modelled by the values themselves). -/
structure WorkNotionDatabasePropertySchema where
  title : String
  dateStart : Int
  dateEnd : Int
deriving DecidableEq, Repr

/-- `createWorkProperty(wp)`: title `⏳ ${minuteDuration}` with the unrounded
minute duration `(end - start) / 1000 / 60`, dates from the period itself. -/
def createWorkProperty (wp : WorkPeriod) : WorkNotionDatabasePropertySchema :=
  let minuteDuration : Rat := ((wp.«end» - wp.start : Int) : Rat) / 1000 / 60
  { title := "⏳ " ++ toString minuteDuration
    dateStart := wp.start
    dateEnd := wp.«end» }

/-- The file system as the program sees it: the primary log's lines, the
recovery (failures) log's lines, and whether the recovery log file exists
(`existsSync`). -/
structure World where
  primary : List JsonLogLine
  recovery : List JsonLogLine
  recoveryFileSeen : Bool
deriving DecidableEq, Repr

/-- `checkForFailures(failureLogPath)`: returns the parsed recovery lines
(`none` ↦ the source's `undefined` return) together with the recovery log's
contents after the call (cleared exactly when lines were read). -/
def checkForFailures (w : World) : Option (List LogLine) × List JsonLogLine :=
  if !w.recoveryFileSeen then
    (none, w.recovery)
  else if w.recovery.length = 0 then
    (none, w.recovery)
  else
    (some (w.recovery.map parseLogLine), [])

/-- The merged log of `main`: the primary log's parsed lines, with the
recovery lines (when `checkForFailures` returned some) pushed at the end. -/
def mergedLogLines (w : World) : List LogLine :=
  match (checkForFailures w).1 with
  | some failures => w.primary.map parseLogLine ++ failures
  | none => w.primary.map parseLogLine

/-- The delivery loop of `main`: attempt `postWorkPeriod` for every period in
order; `sink i` tells whether the i-th `notion.pages.create` call succeeds.
Returns the records passed to the Sink and the lines appended to the
recovery log (two lines per failed period, in loop order). -/
def postLoop (sink : Nat → Bool) :
    Nat → List WorkPeriod → List WorkNotionDatabasePropertySchema × List JsonLogLine
  | _, [] => ([], [])
  | i, wp :: rest =>
    let r := postLoop sink (i + 1) rest
    (createWorkProperty wp :: r.1,
     (if sink i then [] else getLogLinesFromWorkPeriod wp) ++ r.2)

/-- The observable outcome of one run of `main`: the records handed to
`notion.pages.create`, the two log files' final contents, and the exit code. -/
structure RunResult where
  sinkCalls : List WorkNotionDatabasePropertySchema
  primaryAfter : List JsonLogLine
  recoveryAfter : List JsonLogLine
  exitCode : Nat
deriving DecidableEq, Repr

/-- The `main` IIFE from the point the environment checks have passed
(named `mainRun` because `main` is reserved): parse the primary log, merge
in `checkForFailures`, exit 1 on an empty merged log, exit 0 without posting
when the last line is not stopping, otherwise post every work period
(appending failures to the recovery log) and truncate the primary log
unconditionally. -/
def mainRun (w : World) (sink : Nat → Bool) : RunResult :=
  let cf := checkForFailures w
  let logLines := mergedLogLines w
  if h : logLines = [] then
    { sinkCalls := [], primaryAfter := w.primary, recoveryAfter := cf.2, exitCode := 1 }
  else if (logLines.getLast h).stopping = false then
    { sinkCalls := [], primaryAfter := w.primary, recoveryAfter := cf.2, exitCode := 0 }
  else
    let workPeriods := getWorkPeriods logLines
    let r := postLoop sink 0 workPeriods
    { sinkCalls := r.1, primaryAfter := [], recoveryAfter := cf.2 ++ r.2, exitCode := 0 }

/-- Modelled from the spec, for comparison with `normalizeWorkPeriod`: the
§4.2 algorithm in the spec's own order — `periods = round(duration/60000)`
with half-up rounding, `quantized = periods * 60000`, null when
`quantized < 5*60000`, otherwise `{start, end: start + min(quantized,
25*60000)}`. -/
def specNormalize (start «end» : Int) : Option WorkPeriod :=
  let periods : Int := jsRound (((«end» - start : Int) : Rat) / 60000)
  let quantized : Int := periods * 60000
  if quantized < 5 * 60000 then
    none
  else
    some { start := start, «end» := start + min quantized (25 * 60000) }

/-- A log is chronological when its dates are nondecreasing left to right. -/
def Chronological (log : List LogLine) : Prop :=
  log.Chain' (fun a b => a.date ≤ b.date)

/-- A concrete run input: primary log `work-open @ 100 s, idle @ 750 s`
(a 650-second raw work period), no recovery log file. -/
def world650 : World :=
  { primary := [⟨EventKind.startStop, TimerState.idle, TimerState.work, 100⟩,
                ⟨EventKind.startStop, TimerState.work, TimerState.idle, 750⟩]
    recovery := []
    recoveryFileSeen := false }

/-- A concrete run input: primary log with a single work-opening line at
100 s and nothing else — an in-progress run. -/
def worldOpen : World :=
  { primary := [⟨EventKind.startStop, TimerState.idle, TimerState.work, 100⟩]
    recovery := []
    recoveryFileSeen := false }

/-! ## Helper lemmas -/

/-- Rounding an integer changes nothing. -/
theorem jsRound_intCast (n : Int) : jsRound ((n : Int) : Rat) = n := by
  rw [jsRound, Int.floor_int_add]
  norm_num

/-- `getWorkPeriodsGo` is `rawWorkPeriodsGo` followed by per-interval
normalization: the source loop normalizes each raw pair inline, so the raw
state machine is exactly the pre-normalization part of `getWorkPeriods`. -/
theorem rawWorkPeriodsGo_spec (ws : Option Int) (log : List LogLine) :
    getWorkPeriodsGo ws log =
      (rawWorkPeriodsGo ws log).filterMap
        (fun p => normalizeWorkPeriod p.start p.«end») := by
  induction log generalizing ws with
  | nil => cases ws <;> rfl
  | cons line rest ih =>
    cases ws with
    | none =>
      by_cases h : line.stopping = true <;>
        simp [getWorkPeriodsGo, rawWorkPeriodsGo, h, ih]
    | some s =>
      by_cases h : line.stopping = true
      · cases hn : normalizeWorkPeriod s line.date <;>
          simp [getWorkPeriodsGo, rawWorkPeriodsGo, h, hn, ih, List.filterMap]
      · simp [getWorkPeriodsGo, rawWorkPeriodsGo, h, ih]

/-- Any period `normalizeWorkPeriod` returns starts at the given start and
ends strictly later, at least 5 and at most 25 minutes later. -/
theorem normalizeWorkPeriod_some {s e : Int} {p : WorkPeriod}
    (h : normalizeWorkPeriod s e = some p) :
    p.start = s ∧ p.start + 300000 ≤ p.«end» ∧ p.«end» ≤ p.start + 1500000 := by
  simp only [normalizeWorkPeriod] at h
  split at h
  · simp at h
  · rename_i hlt
    injection h with h
    subst h
    refine ⟨rfl, ?_, ?_⟩ <;> dsimp only <;> omega

/-- The first component of the delivery loop: every period is turned into a
record and handed to the Sink, in order, whatever `sink` answers. -/
theorem postLoop_calls (sink : Nat → Bool) (i : Nat) (wps : List WorkPeriod) :
    (postLoop sink i wps).1 = wps.map createWorkProperty := by
  induction wps generalizing i with
  | nil => rfl
  | cons wp rest ih => simp [postLoop, ih]

/-- The second component of the delivery loop: the recovery-log lines are the
serializations of exactly the periods whose Sink call failed, in order. -/
theorem postLoop_appends (sink : Nat → Bool) (i : Nat) (wps : List WorkPeriod) :
    (postLoop sink i wps).2 =
      (((wps.enumFrom i).filter fun p => !sink p.1).map
        fun p => getLogLinesFromWorkPeriod p.2).flatten := by
  induction wps generalizing i with
  | nil => rfl
  | cons wp rest ih =>
    by_cases hs : sink i = true <;>
      simp [postLoop, List.enumFrom, List.filter, hs, ih]

/-- Dividing a millisecond time value by 1000 for serialization and
multiplying back by 1000 on parse recovers the value exactly. -/
theorem unixToDate_intCast_div (m : Int) : unixToDate ((m : Rat) / 1000) = m := by
  have h : ((m : Rat) / 1000) * 1000 = (m : Rat) := by
    rw [div_mul_cancel₀]
    norm_num
  simp only [unixToDate, jsTrunc, h, Rat.num_intCast, Rat.den_intCast]
  simp [Int.tdiv_one]

/-- Parsing the two lines serialized from a work period gives a work-opening
line at its start and a stopping line at its end, dates preserved exactly. -/
theorem parse_getLogLinesFromWorkPeriod (wp : WorkPeriod) :
    (getLogLinesFromWorkPeriod wp).map parseLogLine =
      [⟨false, wp.start⟩, ⟨true, wp.«end»⟩] := by
  simp [getLogLinesFromWorkPeriod, parseLogLine, unixToDate_intCast_div]

/-- Members of the reducer output all come from `normalizeWorkPeriod`. -/
theorem mem_getWorkPeriodsGo {ws : Option Int} {log : List LogLine} {wp : WorkPeriod}
    (h : wp ∈ getWorkPeriodsGo ws log) :
    ∃ s e, normalizeWorkPeriod s e = some wp := by
  induction log generalizing ws with
  | nil => cases ws <;> simp [getWorkPeriodsGo] at h
  | cons line rest ih =>
    cases ws with
    | none =>
      simp only [getWorkPeriodsGo] at h
      split at h
      · exact ih h
      · exact ih h
    | some s =>
      simp only [getWorkPeriodsGo] at h
      split at h
      · split at h
        · rename_i p hp
          rcases List.mem_cons.mp h with rfl | hmem
          · exact ⟨s, line.date, hp⟩
          · exact ih hmem
        · exact ih h
      · exact ih h

/-- One parsed work-opening line at 100 s. -/
theorem parseLogLine_open100 :
    parseLogLine ⟨EventKind.startStop, TimerState.idle, TimerState.work, 100⟩ =
      ⟨false, 100000⟩ := by
  simp only [parseLogLine, unixToDate, jsTrunc]
  norm_num
  all_goals decide

/-- One parsed stopping line at 750 s. -/
theorem parseLogLine_stop750 :
    parseLogLine ⟨EventKind.startStop, TimerState.work, TimerState.idle, 750⟩ =
      ⟨true, 750000⟩ := by
  simp only [parseLogLine, unixToDate, jsTrunc]
  norm_num

/-- The 650-second raw interval is normalized up to 660 s = 11 minutes. -/
theorem normalize_world650 :
    normalizeWorkPeriod 100000 750000 = some ⟨100000, 760000⟩ := by
  simp only [normalizeWorkPeriod, jsRound]
  norm_num

/-- The merged log of `world650`. -/
theorem mergedLogLines_world650 :
    mergedLogLines world650 = [⟨false, 100000⟩, ⟨true, 750000⟩] := by
  simp [mergedLogLines, checkForFailures, world650,
    parseLogLine_open100, parseLogLine_stop750]

/-- The reducer output of `world650`'s merged log: one normalized period. -/
theorem getWorkPeriods_world650 :
    getWorkPeriods (mergedLogLines world650) = [⟨100000, 760000⟩] := by
  rw [mergedLogLines_world650]
  simp [getWorkPeriods, getWorkPeriodsGo, normalize_world650]

/-- The merged log of `worldOpen`. -/
theorem mergedLogLines_worldOpen :
    mergedLogLines worldOpen = [⟨false, 100000⟩] := by
  simp [mergedLogLines, checkForFailures, worldOpen, parseLogLine_open100]

/-- The reducer output of a lone complete 5-minute period starting at 0. -/
theorem getWorkPeriods_fiveMinutes :
    getWorkPeriods [⟨false, 0⟩, ⟨true, 300000⟩] = [⟨0, 300000⟩] := by
  have h : normalizeWorkPeriod 0 300000 = some ⟨0, 300000⟩ := by
    simp only [normalizeWorkPeriod, jsRound]
    norm_num
  simp [getWorkPeriods, getWorkPeriodsGo, h]

/-! ## Claim theorems -/

/-- C1: `normalizeWorkPeriod start end` computes `periods =
round((end-start)/60000)` with half-up rounding, `quantized = periods *
60000`, returns `none` when `quantized < 5*60000`, and otherwise returns
`{start, end: start + min(quantized, 25*60000)}` (the spec-side algorithm is
`specNormalize`); in particular (0 min, 3 min) is dropped, (0 min, 5 min) is
kept exactly, (0 min, 30 min) is clamped to (0, 25 min), and (0 min,
7.6 min) becomes (0, 8 min). -/
theorem normalizeWorkPeriod_matches_spec (s e : Int) :
    normalizeWorkPeriod s e = specNormalize s e ∧
    normalizeWorkPeriod 0 180000 = none ∧
    normalizeWorkPeriod 0 300000 = some ⟨0, 300000⟩ ∧
    normalizeWorkPeriod 0 1800000 = some ⟨0, 1500000⟩ ∧
    normalizeWorkPeriod 0 456000 = some ⟨0, 480000⟩ := by
  refine ⟨?_, ?_, ?_, ?_, ?_⟩ <;>
    · simp only [normalizeWorkPeriod, specNormalize, jsRound]
      norm_num

/-- C3: round-trip law — for every work period `wp` with `end > start`,
parsing the two recovery-log lines serialized from `wp` (idle→work at
`wp.start`, work→idle at `wp.end`) with the Parser and folding them through
the Reducer's state machine reconstructs exactly the raw pair `(wp.start,
wp.end)` that is then handed to the Normalizer — timestamps preserved
exactly (`rawWorkPeriodsGo_spec` identifies this state machine with the raw
part of `getWorkPeriods`). -/
theorem recovery_roundtrip (wp : WorkPeriod) (h : wp.start < wp.«end») :
    rawWorkPeriods ((getLogLinesFromWorkPeriod wp).map parseLogLine) =
      [⟨wp.start, wp.«end»⟩] := by
  rw [parse_getLogLinesFromWorkPeriod]
  simp [rawWorkPeriods, rawWorkPeriodsGo]

/-- Witness for C3 at the period (0 ms, 300000 ms). -/
theorem recovery_roundtrip_witness :
    rawWorkPeriods ((getLogLinesFromWorkPeriod ⟨0, 300000⟩).map parseLogLine) =
      [⟨0, 300000⟩] :=
  recovery_roundtrip ⟨0, 300000⟩ (by decide)

/-- C4: reducer state-machine invariant — the open-interval state is a
single `Option` cell, so at most one interval is open at any point; a
non-stopping line while an interval is open is ignored (same state, nothing
emitted, both in the raw machine and in the source's normalizing loop), a
stopping line while no interval is open is a no-op, and
work-open@t0, work-open@t5, idle@t10 reduces to the single raw interval
(t0, t10). -/
theorem reducer_single_open_interval (s t0 t5 t10 : Int) (l1 l2 : LogLine)
    (rest : List LogLine) (h1 : l1.stopping = false) (h2 : l2.stopping = true) :
    rawWorkPeriodsGo (some s) (l1 :: rest) = rawWorkPeriodsGo (some s) rest ∧
    getWorkPeriodsGo (some s) (l1 :: rest) = getWorkPeriodsGo (some s) rest ∧
    rawWorkPeriodsGo none (l2 :: rest) = rawWorkPeriodsGo none rest ∧
    getWorkPeriodsGo none (l2 :: rest) = getWorkPeriodsGo none rest ∧
    rawWorkPeriods [⟨false, t0⟩, ⟨false, t5⟩, ⟨true, t10⟩] = [⟨t0, t10⟩] := by
  refine ⟨?_, ?_, ?_, ?_, ?_⟩ <;>
    simp [rawWorkPeriodsGo, getWorkPeriodsGo, rawWorkPeriods, h1, h2]

/-- Witness for C4 at s = 0, t0 = 0, t5 = 5, t10 = 10, a non-stopping line
and a stopping line at date 0, and an empty tail. -/
theorem reducer_single_open_interval_witness :
    rawWorkPeriodsGo (some 0) [⟨false, 0⟩] = rawWorkPeriodsGo (some 0) [] ∧
    getWorkPeriodsGo (some 0) [⟨false, 0⟩] = getWorkPeriodsGo (some 0) [] ∧
    rawWorkPeriodsGo none [⟨true, 0⟩] = rawWorkPeriodsGo none [] ∧
    getWorkPeriodsGo none [⟨true, 0⟩] = getWorkPeriodsGo none [] ∧
    rawWorkPeriods [⟨false, 0⟩, ⟨false, 5⟩, ⟨true, 10⟩] = [⟨0, 10⟩] :=
  reducer_single_open_interval 0 0 5 10 ⟨false, 0⟩ ⟨true, 0⟩ [] rfl rfl

/-- C9: for every interval passed to delivery-record creation, the record's
title is "⏳ " followed by the minutes value `(end-start)/60000` computed
from the unrounded duration of the interval (the source writes it as
`(end-start)/1000/60`, the same rational). -/
theorem delivery_record_title_unrounded (wp : WorkPeriod) :
    (createWorkProperty wp).title =
      "⏳ " ++ toString (((wp.«end» - wp.start : Int) : Rat) / 60000) := by
  simp only [createWorkProperty]
  rw [div_div]
  norm_num

/-- C5: whole-batch in-progress gate — for every run whose merged log is
non-empty and whose final line is non-stopping, `main` performs zero
Sink.create calls and leaves the primary log file's contents unchanged (no
truncation occurs). -/
theorem in_progress_gate (w : World) (sink : Nat → Bool)
    (h1 : mergedLogLines w ≠ [])
    (h2 : ((mergedLogLines w).getLast h1).stopping = false) :
    (mainRun w sink).sinkCalls = [] ∧
    (mainRun w sink).primaryAfter = w.primary := by
  simp only [mainRun]
  rw [dif_neg h1, if_pos h2]
  exact ⟨rfl, rfl⟩

/-- Witness for C5 at `worldOpen`, whose one line is non-stopping, with a
Sink that would succeed. -/
theorem in_progress_gate_witness :
    (mainRun worldOpen fun _ => true).sinkCalls = [] ∧
    (mainRun worldOpen fun _ => true).primaryAfter = worldOpen.primary := by
  have h1 : mergedLogLines worldOpen ≠ [] := by
    rw [mergedLogLines_worldOpen]; simp
  have h2 : ((mergedLogLines worldOpen).getLast h1).stopping = false := by
    revert h1
    rw [mergedLogLines_worldOpen]
    intro h1
    rfl
  exact in_progress_gate worldOpen (fun _ => true) h1 h2

/-- C6: for every chronological log-line sequence, every interval the
Reducer emits satisfies end > start (it never emits an interval with
end ≤ start: every emitted interval passed `normalizeWorkPeriod`, which only
returns periods at least 5 minutes long). -/
theorem reducer_emits_positive_intervals (log : List LogLine)
    (hc : Chronological log) :
    ∀ wp ∈ getWorkPeriods log, wp.start < wp.«end» := by
  intro wp hwp
  obtain ⟨s, e, hn⟩ := mem_getWorkPeriodsGo hwp
  obtain ⟨-, h2, -⟩ := normalizeWorkPeriod_some hn
  omega

/-- Witness for C6 on the chronological log `work-open@0, idle@300 s` and
its emitted interval (0, 300000). -/
theorem reducer_emits_positive_intervals_witness :
    (⟨0, 300000⟩ : WorkPeriod).start < (⟨0, 300000⟩ : WorkPeriod).«end» :=
  reducer_emits_positive_intervals [⟨false, 0⟩, ⟨true, 300000⟩]
    (by simp [Chronological]) ⟨0, 300000⟩
    (by rw [getWorkPeriods_fiveMinutes]; exact List.mem_singleton.mpr rfl)

/-- C7: Recovery Loader — `checkForFailures` contributes no lines and leaves
the recovery log as it was when the recovery log file does not exist or is
empty; otherwise it parses the recovery log's lines, the merged log appends
them after (not before) the primary log's parsed lines, and the recovery
log is cleared by the read. (It runs once, before `getWorkPeriods`, in
`mainRun`.) -/
theorem recovery_loader_merge (w1 w2 w3 : World)
    (h1 : w1.recoveryFileSeen = false) (h2 : w2.recovery = [])
    (h3 : w3.recoveryFileSeen = true) (h4 : w3.recovery ≠ []) :
    checkForFailures w1 = (none, w1.recovery) ∧
    mergedLogLines w1 = w1.primary.map parseLogLine ∧
    checkForFailures w2 = (none, w2.recovery) ∧
    mergedLogLines w2 = w2.primary.map parseLogLine ∧
    checkForFailures w3 = (some (w3.recovery.map parseLogLine), []) ∧
    mergedLogLines w3 =
      w3.primary.map parseLogLine ++ w3.recovery.map parseLogLine := by
  refine ⟨?_, ?_, ?_, ?_, ?_, ?_⟩ <;>
    simp [checkForFailures, mergedLogLines, h1, h2, h3, h4]

/-- Witness for C7: a missing recovery file, an empty recovery log, and a
one-line recovery log next to a one-line primary log. -/
theorem recovery_loader_merge_witness :
    checkForFailures worldOpen = (none, worldOpen.recovery) ∧
    mergedLogLines worldOpen = worldOpen.primary.map parseLogLine ∧
    checkForFailures ⟨[], [], true⟩ = (none, ([] : List JsonLogLine)) ∧
    mergedLogLines ⟨[], [], true⟩ = ([] : List JsonLogLine).map parseLogLine ∧
    checkForFailures ⟨worldOpen.primary,
        [⟨EventKind.startStop, TimerState.work, TimerState.idle, 750⟩], true⟩ =
      (some ([⟨EventKind.startStop, TimerState.work, TimerState.idle, 750⟩].map
        parseLogLine), []) ∧
    mergedLogLines ⟨worldOpen.primary,
        [⟨EventKind.startStop, TimerState.work, TimerState.idle, 750⟩], true⟩ =
      worldOpen.primary.map parseLogLine ++
        [⟨EventKind.startStop, TimerState.work, TimerState.idle, 750⟩].map
          parseLogLine :=
  recovery_loader_merge worldOpen ⟨[], [], true⟩
    ⟨worldOpen.primary,
      [⟨EventKind.startStop, TimerState.work, TimerState.idle, 750⟩], true⟩
    rfl rfl rfl (by simp)

/-- C8: in a run that reaches delivery, every interval in the batch is
attempted in order (the Sink receives the records of all reduced periods,
whatever the sink answers for earlier ones), and afterwards the primary log
is truncated to empty unconditionally. -/
theorem delivery_attempts_all_and_truncates (w : World) (sink : Nat → Bool)
    (h1 : mergedLogLines w ≠ [])
    (h2 : ((mergedLogLines w).getLast h1).stopping = true) :
    (mainRun w sink).sinkCalls =
      (getWorkPeriods (mergedLogLines w)).map createWorkProperty ∧
    (mainRun w sink).primaryAfter = [] := by
  simp only [mainRun]
  rw [dif_neg h1, if_neg (by rw [h2]; simp)]
  exact ⟨postLoop_calls sink 0 _, rfl⟩

/-- Witness for C8 at `world650` with a Sink that fails every call: the one
normalized period is still attempted and the primary log still cleared. -/
theorem delivery_attempts_all_and_truncates_witness :
    (mainRun world650 fun _ => false).sinkCalls =
      (getWorkPeriods (mergedLogLines world650)).map createWorkProperty ∧
    (mainRun world650 fun _ => false).primaryAfter = [] := by
  have h1 : mergedLogLines world650 ≠ [] := by
    rw [mergedLogLines_world650]; simp
  have h2 : ((mergedLogLines world650).getLast h1).stopping = true := by
    revert h1
    rw [mergedLogLines_world650]
    intro h1
    rfl
  exact delivery_attempts_all_and_truncates world650 (fun _ => false) h1 h2

/-- C10: normalization is idempotent — whenever `normalizeWorkPeriod start
end` returns a period `p`, normalizing `(p.start, p.end)` again returns `p`
unchanged, so a re-queued normalized interval is stable under
re-normalization on a later run. -/
theorem normalize_idempotent (s e : Int) (p : WorkPeriod)
    (h : normalizeWorkPeriod s e = some p) :
    normalizeWorkPeriod p.start p.«end» = some p := by
  simp only [normalizeWorkPeriod] at h ⊢
  split at h
  · simp at h
  · rename_i hlt
    injection h with h
    subst h
    dsimp only
    set k := jsRound (((e - s : Int) : Rat) / ((60 * 1000 : Int) : Rat)) with hk
    have h5 : 5 ≤ k := by omega
    have hdur : (s + min (k * (60 * 1000)) (25 * (60 * 1000)) - s : Int) =
        min k 25 * (60 * 1000) := by omega
    rw [hdur]
    have harg : ((min k 25 * (60 * 1000) : Int) : Rat) / ((60 * 1000 : Int) : Rat) =
        ((min k 25 : Int) : Rat) := by
      push_cast
      rw [mul_div_assoc]
      norm_num
    rw [harg, jsRound_intCast, if_neg (by omega)]
    simp only [Option.some.injEq, WorkPeriod.mk.injEq, true_and]
    omega

/-- Witness for C10 at (0 ms, 650000 ms), normalized to (0, 660000) and
unchanged by a second normalization. -/
theorem normalize_idempotent_witness :
    normalizeWorkPeriod (WorkPeriod.start ⟨0, 660000⟩) (WorkPeriod.«end» ⟨0, 660000⟩) =
      some ⟨0, 660000⟩ :=
  normalize_idempotent 0 650000 ⟨0, 660000⟩
    (by simp only [normalizeWorkPeriod, jsRound]; norm_num)

/-- C2 counterexample: at the concrete run `world650` (raw interval 100 s to
750 s) with an always-failing Sink, the recovery log receives the
serialization of the normalized interval (100000 ms, 760000 ms), which
differs from the serialization of the raw un-normalized interval
(100000 ms, 750000 ms) that the claim says is re-queued. -/
theorem requeued_interval_not_raw_cex :
    rawWorkPeriods (mergedLogLines world650) = [⟨100000, 750000⟩] ∧
    (mainRun world650 fun _ => false).recoveryAfter =
      getLogLinesFromWorkPeriod ⟨100000, 760000⟩ ∧
    getLogLinesFromWorkPeriod ⟨100000, 760000⟩ ≠
      getLogLinesFromWorkPeriod ⟨100000, 750000⟩ := by
  have h1 : mergedLogLines world650 ≠ [] := by
    rw [mergedLogLines_world650]; simp
  have h2 : ((mergedLogLines world650).getLast h1).stopping = true := by
    revert h1
    rw [mergedLogLines_world650]
    intro h1
    rfl
  refine ⟨?_, ?_, ?_⟩
  · rw [mergedLogLines_world650]
    simp [rawWorkPeriods, rawWorkPeriodsGo]
  · simp only [mainRun]
    rw [dif_neg h1, if_neg (by rw [h2]; simp)]
    dsimp only
    rw [getWorkPeriods_world650]
    simp [postLoop, checkForFailures, world650]
  · simp only [getLogLinesFromWorkPeriod, ne_eq, List.cons.injEq,
      JsonLogLine.mk.injEq, and_true, true_and, not_and]
    intro hfirst
    norm_num at hfirst

/-- C2 as amended: when Sink delivery fails for an interval, the pipeline
appends to the recovery log exactly the two newline-joined lines encoding
idle→work at the interval's start and work→idle at its end — but the
interval so re-queued is the NORMALIZED interval produced by
`getWorkPeriods`, not the raw un-normalized one (the raw pair is not
retained past normalization), so a later run re-normalizing it gets the
same period back (idempotence, C10). -/
theorem recovery_requeues_normalized_serialization (w : World)
    (sink : Nat → Bool) (h1 : mergedLogLines w ≠ [])
    (h2 : ((mergedLogLines w).getLast h1).stopping = true) :
    (mainRun w sink).recoveryAfter =
      (checkForFailures w).2 ++
        ((((getWorkPeriods (mergedLogLines w)).enumFrom 0).filter
            fun p => !sink p.1).map
          fun p => getLogLinesFromWorkPeriod p.2).flatten ∧
    ∀ wp : WorkPeriod,
      getLogLinesFromWorkPeriod wp =
        [⟨EventKind.startStop, TimerState.idle, TimerState.work,
            (wp.start : Rat) / 1000⟩,
         ⟨EventKind.startStop, TimerState.work, TimerState.idle,
            (wp.«end» : Rat) / 1000⟩] := by
  constructor
  · simp only [mainRun]
    rw [dif_neg h1, if_neg (by rw [h2]; simp)]
    dsimp only
    rw [postLoop_appends]
  · intro wp
    rfl

/-- Witness for the amended C2 at `world650` with an always-failing Sink. -/
theorem recovery_requeues_normalized_serialization_witness :
    (mainRun world650 fun _ => false).recoveryAfter =
      (checkForFailures world650).2 ++
        ((((getWorkPeriods (mergedLogLines world650)).enumFrom 0).filter
            fun p => !(fun _ => false) p.1).map
          fun p => getLogLinesFromWorkPeriod p.2).flatten ∧
    ∀ wp : WorkPeriod,
      getLogLinesFromWorkPeriod wp =
        [⟨EventKind.startStop, TimerState.idle, TimerState.work,
            (wp.start : Rat) / 1000⟩,
         ⟨EventKind.startStop, TimerState.work, TimerState.idle,
            (wp.«end» : Rat) / 1000⟩] := by
  have h1 : mergedLogLines world650 ≠ [] := by
    rw [mergedLogLines_world650]; simp
  have h2 : ((mergedLogLines world650).getLast h1).stopping = true := by
    revert h1
    rw [mergedLogLines_world650]
    intro h1
    rfl
  exact recovery_requeues_normalized_serialization world650 (fun _ => false) h1 h2
